import Mathlib

/-!
Verification of the in-memory publish/subscribe broker (package pubsub).
The broker state is a nested map from topic name to a map from subscriber
name to the ordered list of buffered messages.  Go maps are embedded as
association lists with lookup / set / erase operations; the four HTTP
handlers PublishMessage, Subscribe, Unsubscribe and GetMessages are
translated control-flow faithfully, with the server clock, the request
body deserialization outcome and the response marshalling/writing
outcomes passed in as explicit parameters.
-/

/-- Server timestamps (time.Now readings) are modelled as naturals. -/
abbrev Time := Nat

/-- Message carries a content string and a broker-assigned publish time. -/
structure Message where
  content : String
  published : Time
deriving DecidableEq, Repr

/-- Buffer of pending messages of one subscription, in publish order. -/
abbrev Buffer := List Message

/-- Map from subscriber name to its buffer (Go: map[string][]Message). -/
abbrev SubMap := List (String × Buffer)

/-- Map from topic name to its subscriptions (Go: map[string]subscriptions). -/
abbrev TopicMap := List (String × SubMap)

/-- Broker state: the topics map of the PubSub struct. -/
structure PubSub where
  topics : TopicMap
deriving DecidableEq, Repr

/-- Lookup of a key in an association list, as Go map indexing. -/
def lookup {α : Type} (k : String) : List (String × α) → Option α
  | [] => none
  | (k', v) :: rest => if k' = k then some v else lookup k rest

/-- Store a value under a key: replace the first binding, else append,
as Go map assignment. -/
def setKey {α : Type} (k : String) (v : α) : List (String × α) → List (String × α)
  | [] => [(k, v)]
  | (k', v') :: rest => if k' = k then (k, v) :: rest else (k', v') :: setKey k v rest

/-- Remove the first binding of a key, as Go delete. -/
def eraseKey {α : Type} (k : String) : List (String × α) → List (String × α)
  | [] => []
  | (k', v') :: rest => if k' = k then rest else (k', v') :: eraseKey k rest

/-- HTTP status codes used by the handlers. -/
def statusOK : Nat := 200

/-- Status 201, written by PublishMessage and Subscribe on success. -/
def statusCreated : Nat := 201

/-- Status 204, empty-result signal. -/
def statusNoContent : Nat := 204

/-- Status 404, unknown subscription. -/
def statusNotFound : Nat := 404

/-- Status 500, written by http.Error on faults. -/
def statusInternalServerError : Nat := 500

/-- Outcome of a handler call: HTTP status plus the message list written
to the response body (empty except for a successful GetMessages). -/
structure Resp where
  code : Nat
  body : List Message
deriving DecidableEq, Repr

/-- Request body of a Publish call as the broker can observe it:
absent (r.Body == nil), unreadable or invalid JSON, or a JSON object
deserializing to a content string. -/
inductive Body where
  | none
  | malformed
  | content (c : String)
deriving DecidableEq, Repr

/-- unmarshalBody: a nil body leaves the Message at its zero value
(content empty string) with no error; a read or JSON error is an error;
otherwise the deserialized content string is stored. -/
def unmarshalBody : Body → Option String
  | Body.none => some ""
  | Body.malformed => none
  | Body.content c => some c

/-- PublishMessage handler (in-memory variant): if the topic is absent
respond 204 and stop; then deserialize the body (500 on error); then
stamp published with the server clock once and append the stamped
message to every subscriber buffer of the topic; respond 201. -/
def PublishMessage (ps : PubSub) (topic : String) (body : Body) (now : Time) :
    Resp × PubSub :=
  match lookup topic ps.topics with
  | none => (⟨statusNoContent, []⟩, ps)
  | some subs =>
    match unmarshalBody body with
    | none => (⟨statusInternalServerError, []⟩, ps)
    | some content =>
      let msg : Message := ⟨content, now⟩
      let subs' := subs.map (fun p => (p.1, p.2 ++ [msg]))
      (⟨statusCreated, []⟩, ⟨setKey topic subs' ps.topics⟩)

/-- Subscribe handler: create the topic entry if absent, then create the
subscriber entry with an empty buffer if absent; always respond 201. -/
def Subscribe (ps : PubSub) (topic subscriber : String) : Resp × PubSub :=
  let topics1 :=
    match lookup topic ps.topics with
    | none => setKey topic [] ps.topics
    | some _ => ps.topics
  let subs := (lookup topic topics1).getD []
  let topics2 :=
    match lookup subscriber subs with
    | none => setKey topic (setKey subscriber [] subs) topics1
    | some _ => topics1
  (⟨statusCreated, []⟩, ⟨topics2⟩)

/-- Unsubscribe handler: 404 if the topic or the subscriber within the
topic is absent; otherwise delete the subscriber entry, delete the topic
entry too when no subscribers remain, and respond 204. -/
def Unsubscribe (ps : PubSub) (topic subscriber : String) : Resp × PubSub :=
  match lookup topic ps.topics with
  | none => (⟨statusNotFound, []⟩, ps)
  | some subs =>
    match lookup subscriber subs with
    | none => (⟨statusNotFound, []⟩, ps)
    | some _ =>
      let subs' := eraseKey subscriber subs
      let topics' :=
        if subs'.length = 0 then eraseKey topic ps.topics
        else setKey topic subs' ps.topics
      (⟨statusNoContent, []⟩, ⟨topics'⟩)

/-- GetMessages handler: 404 if the topic or the subscriber within the
topic is absent; 204 if the buffer is empty; then marshal the buffer
(500 on error, state untouched), write it (500 on error, state
untouched), and only then reset the buffer to empty and respond 200
with the marshalled messages. -/
def GetMessages (ps : PubSub) (topic subscriber : String)
    (marshalOk writeOk : Bool) : Resp × PubSub :=
  match lookup topic ps.topics with
  | none => (⟨statusNotFound, []⟩, ps)
  | some subs =>
    match lookup subscriber subs with
    | none => (⟨statusNotFound, []⟩, ps)
    | some msgs =>
      if msgs.length = 0 then (⟨statusNoContent, []⟩, ps)
      else if marshalOk = false then (⟨statusInternalServerError, []⟩, ps)
      else if writeOk = false then (⟨statusInternalServerError, []⟩, ps)
      else (⟨statusOK, msgs⟩, ⟨setKey topic (setKey subscriber [] subs) ps.topics⟩)

/-- One broker invocation, with all external inputs explicit. -/
inductive Op where
  | publish (topic : String) (body : Body) (now : Time)
  | subscribe (topic subscriber : String)
  | unsubscribe (topic subscriber : String)
  | poll (topic subscriber : String) (marshalOk writeOk : Bool)
deriving DecidableEq, Repr

/-- Dispatch one operation to its handler. -/
def applyOp (ps : PubSub) : Op → Resp × PubSub
  | Op.publish t b now => PublishMessage ps t b now
  | Op.subscribe t s => Subscribe ps t s
  | Op.unsubscribe t s => Unsubscribe ps t s
  | Op.poll t s mOk wOk => GetMessages ps t s mOk wOk

/-- State after one operation. -/
def step (ps : PubSub) (op : Op) : PubSub := (applyOp ps op).2

/-- State after a sequence of operations. -/
def run (ps : PubSub) : List Op → PubSub
  | [] => ps
  | op :: ops => run (step ps op) ops

/-- The broker state of a fresh PubSub instance. -/
def emptyState : PubSub := ⟨[]⟩

/-- Buffer of the (topic, subscriber) subscription, empty when absent. -/
def buffer (ps : PubSub) (topic subscriber : String) : List Message :=
  (lookup subscriber ((lookup topic ps.topics).getD [])).getD []

/-- Proposition that an operation is a Publish to the given topic whose
deserialized body and clock reading stamp exactly the given message. -/
def stamps : Op → String → Message → Prop
  | Op.publish t b now, topic, m =>
      t = topic ∧ now = m.published ∧ unmarshalBody b = some m.content
  | _, _, _ => False

/-- Keys of an association list. -/
def keys {α : Type} (l : List (String × α)) : List String := l.map Prod.fst

/-- An association list is well formed when its keys are distinct. -/
abbrev NodupKeys {α : Type} (l : List (String × α)) : Prop := (keys l).Nodup

/-- Well-formed broker state: distinct topic keys and, per topic,
distinct subscriber keys (true of Go maps by construction). -/
abbrev WF (ps : PubSub) : Prop :=
  NodupKeys ps.topics ∧ ∀ p ∈ ps.topics, NodupKeys p.2

theorem lookup_setKey_self {α : Type} (k : String) (v : α) :
    ∀ l : List (String × α), lookup k (setKey k v l) = some v
  | [] => by simp [setKey, lookup]
  | (k', v') :: rest => by
    by_cases h : k' = k
    · simp [setKey, h, lookup]
    · simp [setKey, h, lookup, lookup_setKey_self k v rest]

theorem lookup_setKey_ne {α : Type} (k k' : String) (v : α) (h : k' ≠ k) :
    ∀ l : List (String × α), lookup k (setKey k' v l) = lookup k l
  | [] => by simp [setKey, lookup, h]
  | (a, b) :: rest => by
    by_cases ha : a = k'
    · simp [setKey, ha, lookup, h]
    · simp only [setKey, if_neg ha, lookup]
      by_cases hk : a = k
      · simp [hk]
      · simp [hk, lookup_setKey_ne k k' v h rest]

theorem lookup_eraseKey_ne {α : Type} (k k' : String) (h : k' ≠ k) :
    ∀ l : List (String × α), lookup k (eraseKey k' l) = lookup k l
  | [] => by simp [eraseKey]
  | (a, b) :: rest => by
    by_cases ha : a = k'
    · simp [eraseKey, ha, lookup, h]
    · simp only [eraseKey, if_neg ha, lookup]
      by_cases hk : a = k
      · simp [hk]
      · simp [hk, lookup_eraseKey_ne k k' h rest]

theorem lookup_mem {α : Type} (k : String) (v : α) :
    ∀ l : List (String × α), lookup k l = some v → (k, v) ∈ l
  | [] => by simp [lookup]
  | (a, b) :: rest => by
    by_cases ha : a = k
    · simp [lookup, ha]
      intro hv
      exact Or.inl hv.symm
    · simp only [lookup, if_neg ha]
      intro hv
      exact List.mem_cons_of_mem _ (lookup_mem k v rest hv)

theorem mem_setKey {α : Type} (p : String × α) (k : String) (v : α) :
    ∀ l : List (String × α), p ∈ setKey k v l → p ∈ l ∨ p = (k, v)
  | [] => by simp [setKey]
  | (a, b) :: rest => by
    by_cases ha : a = k
    · simp [setKey, ha]
      rintro (h | h)
      · exact Or.inr h
      · exact Or.inl (Or.inr h)
    · simp only [setKey, if_neg ha, List.mem_cons]
      rintro (h | h)
      · exact Or.inl (Or.inl h)
      · rcases mem_setKey p k v rest h with h' | h'
        · exact Or.inl (Or.inr h')
        · exact Or.inr h'

theorem eraseKey_sublist {α : Type} (k : String) :
    ∀ l : List (String × α), List.Sublist (eraseKey k l) l
  | [] => by simp [eraseKey]
  | (a, b) :: rest => by
    by_cases ha : a = k
    · simp only [eraseKey, if_pos ha]
      exact List.sublist_cons_self _ _
    · simp only [eraseKey, if_neg ha]
      exact List.Sublist.cons₂ _ (eraseKey_sublist k rest)

theorem mem_eraseKey {α : Type} (p : String × α) (k : String)
    (l : List (String × α)) (h : p ∈ eraseKey k l) : p ∈ l :=
  (eraseKey_sublist k l).mem h

theorem lookup_eq_none_of_not_mem_keys {α : Type} (k : String) :
    ∀ l : List (String × α), k ∉ keys l → lookup k l = none
  | [] => by simp [lookup]
  | (a, b) :: rest => by
    simp only [keys, List.map_cons, List.mem_cons, lookup]
    intro h
    push_neg at h
    rw [if_neg (fun hak => h.1 hak.symm)]
    exact lookup_eq_none_of_not_mem_keys k rest h.2

theorem mem_keys_of_lookup {α : Type} (k : String) (v : α)
    (l : List (String × α)) (h : lookup k l = some v) : k ∈ keys l := by
  by_contra hk
  rw [lookup_eq_none_of_not_mem_keys k l hk] at h
  cases h

theorem mem_keys_setKey {α : Type} (a k : String) (v : α) :
    ∀ l : List (String × α), a ∈ keys (setKey k v l) ↔ a ∈ keys l ∨ a = k
  | [] => by simp [setKey, keys, eq_comm]
  | (x, y) :: rest => by
    simp only [setKey]
    split
    next hx =>
      subst hx
      simp only [keys, List.map_cons, List.mem_cons]
      tauto
    next hx =>
      simp only [keys, List.map_cons, List.mem_cons]
      have ih := mem_keys_setKey a k v rest
      simp only [keys] at ih
      rw [ih]
      tauto

theorem nodup_setKey {α : Type} (k : String) (v : α) :
    ∀ l : List (String × α), NodupKeys l → NodupKeys (setKey k v l)
  | [] => by simp [setKey, NodupKeys, keys]
  | (a, b) :: rest => by
    intro h
    simp only [NodupKeys, keys, List.map_cons, List.nodup_cons] at h
    by_cases ha : a = k
    · simp only [setKey, if_pos ha, NodupKeys, keys, List.map_cons, List.nodup_cons]
      exact ⟨by rw [← ha]; exact h.1, h.2⟩
    · simp only [setKey, if_neg ha, NodupKeys, keys, List.map_cons, List.nodup_cons]
      refine ⟨?_, nodup_setKey k v rest h.2⟩
      intro hmem
      rcases (mem_keys_setKey a k v rest).mp hmem with h' | h'
      · exact h.1 h'
      · exact ha h'

theorem nodup_eraseKey {α : Type} (k : String) (l : List (String × α))
    (h : NodupKeys l) : NodupKeys (eraseKey k l) :=
  List.Nodup.sublist (List.Sublist.map Prod.fst (eraseKey_sublist k l)) h

theorem lookup_eraseKey_self {α : Type} (k : String) :
    ∀ l : List (String × α), NodupKeys l → lookup k (eraseKey k l) = none
  | [] => by simp [eraseKey, lookup]
  | (a, b) :: rest => by
    intro h
    simp only [NodupKeys, keys, List.map_cons, List.nodup_cons] at h
    by_cases ha : a = k
    · simp only [eraseKey, if_pos ha]
      apply lookup_eq_none_of_not_mem_keys
      rw [← ha]
      exact h.1
    · simp only [eraseKey, if_neg ha, lookup, if_neg ha]
      exact lookup_eraseKey_self k rest h.2

theorem lookup_map_snd {α β : Type} (f : α → β) (k : String) :
    ∀ l : List (String × α),
      lookup k (l.map (fun p => (p.1, f p.2))) = (lookup k l).map f
  | [] => by simp [lookup]
  | (a, b) :: rest => by
    by_cases ha : a = k
    · simp [lookup, ha]
    · simp [lookup, ha, lookup_map_snd f k rest]

theorem keys_map_snd {α β : Type} (f : α → β) (l : List (String × α)) :
    keys (l.map (fun p => (p.1, f p.2))) = keys l := by
  simp [keys, List.map_map]

theorem PublishMessage_absent_topic (ps : PubSub) (T : String) (b : Body) (now : Time)
    (h1 : lookup T ps.topics = none) :
    PublishMessage ps T b now = (⟨statusNoContent, []⟩, ps) := by
  simp [PublishMessage, h1]

theorem PublishMessage_bad_body (ps : PubSub) (T : String) (b : Body) (now : Time)
    (subs : SubMap) (h1 : lookup T ps.topics = some subs)
    (h2 : unmarshalBody b = none) :
    PublishMessage ps T b now = (⟨statusInternalServerError, []⟩, ps) := by
  simp [PublishMessage, h1, h2]

theorem PublishMessage_delivers (ps : PubSub) (T : String) (b : Body) (now : Time)
    (subs : SubMap) (c : String) (h1 : lookup T ps.topics = some subs)
    (h2 : unmarshalBody b = some c) :
    PublishMessage ps T b now = (⟨statusCreated, []⟩,
      ⟨setKey T (subs.map (fun p => (p.1, p.2 ++ [⟨c, now⟩]))) ps.topics⟩) := by
  simp [PublishMessage, h1, h2]

theorem Subscribe_absent_topic (ps : PubSub) (T S : String)
    (h1 : lookup T ps.topics = none) :
    Subscribe ps T S = (⟨statusCreated, []⟩,
      ⟨setKey T [(S, [])] (setKey T [] ps.topics)⟩) := by
  simp [Subscribe, h1, lookup_setKey_self, lookup, setKey]

theorem Subscribe_absent_sub (ps : PubSub) (T S : String) (subs : SubMap)
    (h1 : lookup T ps.topics = some subs) (h2 : lookup S subs = none) :
    Subscribe ps T S = (⟨statusCreated, []⟩,
      ⟨setKey T (setKey S [] subs) ps.topics⟩) := by
  simp [Subscribe, h1, h2]

theorem Subscribe_present (ps : PubSub) (T S : String) (subs : SubMap) (buf : Buffer)
    (h1 : lookup T ps.topics = some subs) (h2 : lookup S subs = some buf) :
    Subscribe ps T S = (⟨statusCreated, []⟩, ps) := by
  simp [Subscribe, h1, h2]

theorem Unsubscribe_absent_topic (ps : PubSub) (T S : String)
    (h1 : lookup T ps.topics = none) :
    Unsubscribe ps T S = (⟨statusNotFound, []⟩, ps) := by
  simp [Unsubscribe, h1]

theorem Unsubscribe_absent_sub (ps : PubSub) (T S : String) (subs : SubMap)
    (h1 : lookup T ps.topics = some subs) (h2 : lookup S subs = none) :
    Unsubscribe ps T S = (⟨statusNotFound, []⟩, ps) := by
  simp [Unsubscribe, h1, h2]

theorem Unsubscribe_found (ps : PubSub) (T S : String) (subs : SubMap) (buf : Buffer)
    (h1 : lookup T ps.topics = some subs) (h2 : lookup S subs = some buf) :
    Unsubscribe ps T S = (⟨statusNoContent, []⟩,
      ⟨if (eraseKey S subs).length = 0 then eraseKey T ps.topics
        else setKey T (eraseKey S subs) ps.topics⟩) := by
  simp [Unsubscribe, h1, h2]

theorem GetMessages_absent_topic (ps : PubSub) (T S : String) (mOk wOk : Bool)
    (h1 : lookup T ps.topics = none) :
    GetMessages ps T S mOk wOk = (⟨statusNotFound, []⟩, ps) := by
  simp [GetMessages, h1]

theorem GetMessages_absent_sub (ps : PubSub) (T S : String) (mOk wOk : Bool)
    (subs : SubMap) (h1 : lookup T ps.topics = some subs)
    (h2 : lookup S subs = none) :
    GetMessages ps T S mOk wOk = (⟨statusNotFound, []⟩, ps) := by
  simp [GetMessages, h1, h2]

theorem GetMessages_empty (ps : PubSub) (T S : String) (mOk wOk : Bool)
    (subs : SubMap) (h1 : lookup T ps.topics = some subs)
    (h2 : lookup S subs = some []) :
    GetMessages ps T S mOk wOk = (⟨statusNoContent, []⟩, ps) := by
  simp [GetMessages, h1, h2]

theorem GetMessages_marshal_fault (ps : PubSub) (T S : String) (wOk : Bool)
    (subs : SubMap) (msgs : Buffer) (h1 : lookup T ps.topics = some subs)
    (h2 : lookup S subs = some msgs) (h3 : msgs ≠ []) :
    GetMessages ps T S false wOk = (⟨statusInternalServerError, []⟩, ps) := by
  simp [GetMessages, h1, h2, List.length_eq_zero, h3]

theorem GetMessages_write_fault (ps : PubSub) (T S : String)
    (subs : SubMap) (msgs : Buffer) (h1 : lookup T ps.topics = some subs)
    (h2 : lookup S subs = some msgs) (h3 : msgs ≠ []) :
    GetMessages ps T S true false = (⟨statusInternalServerError, []⟩, ps) := by
  simp [GetMessages, h1, h2, List.length_eq_zero, h3]

theorem GetMessages_drains (ps : PubSub) (T S : String)
    (subs : SubMap) (msgs : Buffer) (h1 : lookup T ps.topics = some subs)
    (h2 : lookup S subs = some msgs) (h3 : msgs ≠ []) :
    GetMessages ps T S true true = (⟨statusOK, msgs⟩,
      ⟨setKey T (setKey S [] subs) ps.topics⟩) := by
  simp [GetMessages, h1, h2, List.length_eq_zero, h3]

theorem keys_fanout (m : Message) :
    ∀ l : SubMap, keys (l.map (fun p => (p.1, p.2 ++ [m]))) = keys l
  | [] => by simp [keys]
  | (a, b) :: rest => by
    simp only [List.map_cons, keys, List.map]
    rw [show List.map Prod.fst (List.map (fun p => (p.1, p.2 ++ [m])) rest)
      = keys (List.map (fun p => (p.1, p.2 ++ [m])) rest) from rfl, keys_fanout m rest]
    rfl

theorem lookup_fanout (m : Message) (k : String) :
    ∀ l : SubMap, lookup k (l.map (fun p => (p.1, p.2 ++ [m])))
      = (lookup k l).map (fun buf => buf ++ [m])
  | [] => by simp [lookup]
  | (a, b) :: rest => by
    by_cases ha : a = k
    · simp [lookup, ha]
    · simp [lookup, ha, lookup_fanout m k rest]

theorem WF_emptyState : WF emptyState := by
  constructor
  · simp [NodupKeys, keys, emptyState]
  · intro p hp
    simp [emptyState] at hp

theorem WF_PublishMessage (ps : PubSub) (T : String) (b : Body) (now : Time)
    (h : WF ps) : WF (PublishMessage ps T b now).2 := by
  cases h1 : lookup T ps.topics with
  | none => rw [PublishMessage_absent_topic ps T b now h1]; exact h
  | some subs =>
    cases h2 : unmarshalBody b with
    | none => rw [PublishMessage_bad_body ps T b now subs h1 h2]; exact h
    | some c =>
      rw [PublishMessage_delivers ps T b now subs c h1 h2]
      constructor
      · exact nodup_setKey T _ ps.topics h.1
      · intro p hp
        rcases mem_setKey p T _ ps.topics hp with hp1 | hp1
        · exact h.2 p hp1
        · rw [hp1]
          show NodupKeys (subs.map (fun p => (p.1, p.2 ++ [⟨c, now⟩])))
          unfold NodupKeys
          rw [keys_fanout]
          exact h.2 (T, subs) (lookup_mem T subs ps.topics h1)

theorem WF_Subscribe (ps : PubSub) (T S : String) (h : WF ps) :
    WF (Subscribe ps T S).2 := by
  cases h1 : lookup T ps.topics with
  | none =>
    rw [Subscribe_absent_topic ps T S h1]
    constructor
    · exact nodup_setKey T _ _ (nodup_setKey T _ _ h.1)
    · intro p hp
      rcases mem_setKey p T _ _ hp with hp1 | hp1
      · rcases mem_setKey p T _ _ hp1 with hp2 | hp2
        · exact h.2 p hp2
        · rw [hp2]; simp [NodupKeys, keys]
      · rw [hp1]; simp [NodupKeys, keys]
  | some subs =>
    cases h2 : lookup S subs with
    | none =>
      rw [Subscribe_absent_sub ps T S subs h1 h2]
      constructor
      · exact nodup_setKey T _ _ h.1
      · intro p hp
        rcases mem_setKey p T _ _ hp with hp1 | hp1
        · exact h.2 p hp1
        · rw [hp1]
          exact nodup_setKey S [] subs (h.2 (T, subs) (lookup_mem T subs ps.topics h1))
    | some buf =>
      rw [Subscribe_present ps T S subs buf h1 h2]; exact h

theorem WF_Unsubscribe (ps : PubSub) (T S : String) (h : WF ps) :
    WF (Unsubscribe ps T S).2 := by
  cases h1 : lookup T ps.topics with
  | none => rw [Unsubscribe_absent_topic ps T S h1]; exact h
  | some subs =>
    cases h2 : lookup S subs with
    | none => rw [Unsubscribe_absent_sub ps T S subs h1 h2]; exact h
    | some buf =>
      rw [Unsubscribe_found ps T S subs buf h1 h2]
      by_cases hlen : (eraseKey S subs).length = 0
      · simp only [hlen, if_true]
        constructor
        · exact nodup_eraseKey T ps.topics h.1
        · intro p hp
          exact h.2 p (mem_eraseKey p T ps.topics hp)
      · simp only [hlen, if_false]
        constructor
        · exact nodup_setKey T _ _ h.1
        · intro p hp
          rcases mem_setKey p T _ _ hp with hp1 | hp1
          · exact h.2 p hp1
          · rw [hp1]
            exact nodup_eraseKey S subs (h.2 (T, subs) (lookup_mem T subs ps.topics h1))

theorem WF_GetMessages (ps : PubSub) (T S : String) (mOk wOk : Bool) (h : WF ps) :
    WF (GetMessages ps T S mOk wOk).2 := by
  cases h1 : lookup T ps.topics with
  | none => rw [GetMessages_absent_topic ps T S mOk wOk h1]; exact h
  | some subs =>
    cases h2 : lookup S subs with
    | none => rw [GetMessages_absent_sub ps T S mOk wOk subs h1 h2]; exact h
    | some msgs =>
      cases hmsgs : msgs with
      | nil =>
        rw [GetMessages_empty ps T S mOk wOk subs h1 (hmsgs ▸ h2)]; exact h
      | cons hd tl =>
        have hne : msgs ≠ [] := by rw [hmsgs]; simp
        cases mOk with
        | false => rw [GetMessages_marshal_fault ps T S wOk subs msgs h1 h2 hne]; exact h
        | true =>
          cases wOk with
          | false => rw [GetMessages_write_fault ps T S subs msgs h1 h2 hne]; exact h
          | true =>
            rw [GetMessages_drains ps T S subs msgs h1 h2 hne]
            constructor
            · exact nodup_setKey T _ _ h.1
            · intro p hp
              rcases mem_setKey p T _ _ hp with hp1 | hp1
              · exact h.2 p hp1
              · rw [hp1]
                exact nodup_setKey S [] subs (h.2 (T, subs) (lookup_mem T subs ps.topics h1))

theorem WF_step (ps : PubSub) (op : Op) (h : WF ps) : WF (step ps op) := by
  cases op with
  | publish t b now => exact WF_PublishMessage ps t b now h
  | subscribe t s => exact WF_Subscribe ps t s h
  | unsubscribe t s => exact WF_Unsubscribe ps t s h
  | poll t s mOk wOk => exact WF_GetMessages ps t s mOk wOk h

theorem WF_run : ∀ (ops : List Op) (ps : PubSub), WF ps → WF (run ps ops)
  | [], ps, h => h
  | op :: ops, ps, h => WF_run ops (step ps op) (WF_step ps op h)

theorem buffer_some (ps : PubSub) (T S : String) (subs : SubMap)
    (h1 : lookup T ps.topics = some subs) :
    buffer ps T S = (lookup S subs).getD [] := by
  unfold buffer
  rw [h1]
  rfl

theorem buffer_none (ps : PubSub) (T S : String)
    (h1 : lookup T ps.topics = none) :
    buffer ps T S = [] := by
  unfold buffer
  rw [h1]
  rfl

theorem buffer_step_no_stamp (ps : PubSub) (op : Op) (T S : String) (m : Message)
    (hwf : WF ps) (hm : m ∉ buffer ps T S) (hnp : ¬ stamps op T m) :
    m ∉ buffer (step ps op) T S := by
  cases op with
  | publish t b now =>
    show m ∉ buffer (PublishMessage ps t b now).2 T S
    cases h1 : lookup t ps.topics with
    | none => rw [PublishMessage_absent_topic ps t b now h1]; exact hm
    | some subs =>
      cases h2 : unmarshalBody b with
      | none => rw [PublishMessage_bad_body ps t b now subs h1 h2]; exact hm
      | some c =>
        rw [PublishMessage_delivers ps t b now subs c h1 h2]
        by_cases ht : t = T
        · subst ht
          have hm' : m ∉ (lookup S subs).getD [] := by
            rw [buffer_some ps t S subs h1] at hm
            exact hm
          rw [buffer_some _ t S _ (lookup_setKey_self t _ ps.topics)]
          rw [lookup_fanout]
          cases h3 : lookup S subs with
          | none => simp
          | some buf =>
            rw [h3] at hm'
            simp only [Option.map_some', Option.getD_some]
            intro hmem
            rcases List.mem_append.mp hmem with hin | hin
            · exact hm' hin
            · apply hnp
              rw [List.mem_singleton] at hin
              subst hin
              exact ⟨rfl, rfl, h2⟩
        · show m ∉ buffer ⟨setKey t _ ps.topics⟩ T S
          unfold buffer
          rw [lookup_setKey_ne T t _ ht ps.topics]
          exact hm
  | subscribe t s =>
    show m ∉ buffer (Subscribe ps t s).2 T S
    cases h1 : lookup t ps.topics with
    | none =>
      rw [Subscribe_absent_topic ps t s h1]
      by_cases ht : t = T
      · subst ht
        rw [buffer_some _ t S _ (lookup_setKey_self t _ _)]
        by_cases hs : s = S
        · subst hs; simp [lookup]
        · simp [lookup, hs]
      · unfold buffer
        rw [lookup_setKey_ne T t _ ht, lookup_setKey_ne T t _ ht]
        exact hm
    | some subs =>
      cases h2 : lookup s subs with
      | none =>
        rw [Subscribe_absent_sub ps t s subs h1 h2]
        by_cases ht : t = T
        · subst ht
          have hm' : m ∉ (lookup S subs).getD [] := by
            rw [buffer_some ps t S subs h1] at hm
            exact hm
          rw [buffer_some _ t S _ (lookup_setKey_self t _ _)]
          by_cases hs : s = S
          · subst hs
            rw [lookup_setKey_self]
            simp
          · rw [lookup_setKey_ne S s _ hs]
            exact hm'
        · unfold buffer
          rw [lookup_setKey_ne T t _ ht]
          exact hm
      | some buf =>
        rw [Subscribe_present ps t s subs buf h1 h2]
        exact hm
  | unsubscribe t s =>
    show m ∉ buffer (Unsubscribe ps t s).2 T S
    cases h1 : lookup t ps.topics with
    | none => rw [Unsubscribe_absent_topic ps t s h1]; exact hm
    | some subs =>
      cases h2 : lookup s subs with
      | none => rw [Unsubscribe_absent_sub ps t s subs h1 h2]; exact hm
      | some buf =>
        rw [Unsubscribe_found ps t s subs buf h1 h2]
        by_cases hlen : (eraseKey s subs).length = 0
        · simp only [hlen, if_true]
          by_cases ht : t = T
          · subst ht
            rw [buffer_none _ t S (lookup_eraseKey_self t ps.topics hwf.1)]
            simp
          · unfold buffer
            rw [lookup_eraseKey_ne T t ht ps.topics]
            exact hm
        · simp only [hlen, if_false]
          by_cases ht : t = T
          · subst ht
            have hm' : m ∉ (lookup S subs).getD [] := by
              rw [buffer_some ps t S subs h1] at hm
              exact hm
            rw [buffer_some _ t S _ (lookup_setKey_self t _ _)]
            by_cases hs : s = S
            · subst hs
              rw [lookup_eraseKey_self s subs
                (hwf.2 (t, subs) (lookup_mem t subs ps.topics h1))]
              simp
            · rw [lookup_eraseKey_ne S s hs subs]
              exact hm'
          · unfold buffer
            rw [lookup_setKey_ne T t _ ht]
            exact hm
  | poll t s mOk wOk =>
    show m ∉ buffer (GetMessages ps t s mOk wOk).2 T S
    cases h1 : lookup t ps.topics with
    | none => rw [GetMessages_absent_topic ps t s mOk wOk h1]; exact hm
    | some subs =>
      cases h2 : lookup s subs with
      | none => rw [GetMessages_absent_sub ps t s mOk wOk subs h1 h2]; exact hm
      | some msgs =>
        cases hmsgs : msgs with
        | nil => rw [GetMessages_empty ps t s mOk wOk subs h1 (hmsgs ▸ h2)]; exact hm
        | cons hd tl =>
          have hne : msgs ≠ [] := by rw [hmsgs]; simp
          cases mOk with
          | false => rw [GetMessages_marshal_fault ps t s wOk subs msgs h1 h2 hne]; exact hm
          | true =>
            cases wOk with
            | false => rw [GetMessages_write_fault ps t s subs msgs h1 h2 hne]; exact hm
            | true =>
              rw [GetMessages_drains ps t s subs msgs h1 h2 hne]
              by_cases ht : t = T
              · subst ht
                have hm' : m ∉ (lookup S subs).getD [] := by
                  rw [buffer_some ps t S subs h1] at hm
                  exact hm
                rw [buffer_some _ t S _ (lookup_setKey_self t _ _)]
                by_cases hs : s = S
                · subst hs
                  rw [lookup_setKey_self]
                  simp
                · rw [lookup_setKey_ne S s _ hs]
                  exact hm'
              · unfold buffer
                rw [lookup_setKey_ne T t _ ht]
                exact hm

theorem buffer_run_no_stamp (T S : String) (m : Message) :
    ∀ (ops : List Op) (ps : PubSub), WF ps → m ∉ buffer ps T S →
      (∀ op ∈ ops, ¬ stamps op T m) → m ∉ buffer (run ps ops) T S
  | [], ps, _, hm, _ => hm
  | op :: ops, ps, hwf, hm, hnp =>
    buffer_run_no_stamp T S m ops (step ps op) (WF_step ps op hwf)
      (buffer_step_no_stamp ps op T S m hwf hm
        (hnp op (List.mem_cons_self op ops)))
      (fun op' hop' => hnp op' (List.mem_cons_of_mem op hop'))

theorem GetMessages_body_in_buffer (ps : PubSub) (T S : String) (mOk wOk : Bool)
    (m : Message) (hmem : m ∈ (GetMessages ps T S mOk wOk).1.body) :
    m ∈ buffer ps T S := by
  cases h1 : lookup T ps.topics with
  | none =>
    rw [GetMessages_absent_topic ps T S mOk wOk h1] at hmem
    cases hmem
  | some subs =>
    cases h2 : lookup S subs with
    | none =>
      rw [GetMessages_absent_sub ps T S mOk wOk subs h1 h2] at hmem
      cases hmem
    | some msgs =>
      cases hmsgs : msgs with
      | nil =>
        rw [GetMessages_empty ps T S mOk wOk subs h1 (hmsgs ▸ h2)] at hmem
        cases hmem
      | cons hd tl =>
        have hne : msgs ≠ [] := by rw [hmsgs]; simp
        rw [buffer_some ps T S subs h1, h2]
        cases mOk with
        | false =>
          rw [GetMessages_marshal_fault ps T S wOk subs msgs h1 h2 hne] at hmem
          cases hmem
        | true =>
          cases wOk with
          | false =>
            rw [GetMessages_write_fault ps T S subs msgs h1 h2 hne] at hmem
            cases hmem
          | true =>
            rw [GetMessages_drains ps T S subs msgs h1 h2 hne] at hmem
            exact hmem

theorem buffer_Subscribe_fresh (ps : PubSub) (T S : String)
    (h : lookup S ((lookup T ps.topics).getD []) = none) :
    buffer (Subscribe ps T S).2 T S = [] := by
  cases h1 : lookup T ps.topics with
  | none =>
    rw [Subscribe_absent_topic ps T S h1]
    rw [buffer_some _ T S _ (lookup_setKey_self T _ _)]
    simp [lookup]
  | some subs =>
    rw [h1] at h
    rw [Subscribe_absent_sub ps T S subs h1 h]
    rw [buffer_some _ T S _ (lookup_setKey_self T _ _)]
    rw [lookup_setKey_self]
    rfl

theorem setKey_setKey_self {α : Type} (k : String) (v w : α) :
    ∀ l : List (String × α), setKey k v (setKey k w l) = setKey k v l
  | [] => by simp [setKey]
  | (a, b) :: rest => by
    by_cases ha : a = k
    · simp [setKey, ha]
    · simp [setKey, ha, setKey_setKey_self k v w rest]

theorem setKey_ne_nil {α : Type} (k : String) (v : α) :
    ∀ l : List (String × α), setKey k v l ≠ []
  | [] => by simp [setKey]
  | (a, b) :: rest => by
    by_cases ha : a = k <;> simp [setKey, ha]

/-- Invariant of C4: every topic entry in the store has a nonempty
subscriber map. -/
abbrev TopicsNonempty (ps : PubSub) : Prop := ∀ p ∈ ps.topics, p.2 ≠ []

theorem TopicsNonempty_step (ps : PubSub) (op : Op) (h : TopicsNonempty ps) :
    TopicsNonempty (step ps op) := by
  cases op with
  | publish t b now =>
    show TopicsNonempty (PublishMessage ps t b now).2
    cases h1 : lookup t ps.topics with
    | none => rw [PublishMessage_absent_topic ps t b now h1]; exact h
    | some subs =>
      cases h2 : unmarshalBody b with
      | none => rw [PublishMessage_bad_body ps t b now subs h1 h2]; exact h
      | some c =>
        rw [PublishMessage_delivers ps t b now subs c h1 h2]
        intro p hp
        rcases mem_setKey p t _ ps.topics hp with hp1 | hp1
        · exact h p hp1
        · rw [hp1]
          intro hmap
          exact h (t, subs) (lookup_mem t subs ps.topics h1)
            (List.map_eq_nil_iff.mp hmap)
  | subscribe t s =>
    show TopicsNonempty (Subscribe ps t s).2
    cases h1 : lookup t ps.topics with
    | none =>
      rw [Subscribe_absent_topic ps t s h1]
      intro p hp
      rw [show (setKey t [(s, [])] (setKey t ([] : SubMap) ps.topics))
        = setKey t [(s, [])] ps.topics from setKey_setKey_self t _ _ ps.topics] at hp
      rcases mem_setKey p t _ ps.topics hp with hp1 | hp1
      · exact h p hp1
      · rw [hp1]; simp
    | some subs =>
      cases h2 : lookup s subs with
      | none =>
        rw [Subscribe_absent_sub ps t s subs h1 h2]
        intro p hp
        rcases mem_setKey p t _ ps.topics hp with hp1 | hp1
        · exact h p hp1
        · rw [hp1]
          exact setKey_ne_nil s [] subs
      | some buf =>
        rw [Subscribe_present ps t s subs buf h1 h2]
        exact h
  | unsubscribe t s =>
    show TopicsNonempty (Unsubscribe ps t s).2
    cases h1 : lookup t ps.topics with
    | none => rw [Unsubscribe_absent_topic ps t s h1]; exact h
    | some subs =>
      cases h2 : lookup s subs with
      | none => rw [Unsubscribe_absent_sub ps t s subs h1 h2]; exact h
      | some buf =>
        rw [Unsubscribe_found ps t s subs buf h1 h2]
        by_cases hlen : (eraseKey s subs).length = 0
        · simp only [hlen, if_true]
          intro p hp
          exact h p (mem_eraseKey p t ps.topics hp)
        · simp only [hlen, if_false]
          intro p hp
          rcases mem_setKey p t _ ps.topics hp with hp1 | hp1
          · exact h p hp1
          · rw [hp1]
            show eraseKey s subs ≠ []
            intro hnil
            exact hlen (by rw [hnil]; rfl)
  | poll t s mOk wOk =>
    show TopicsNonempty (GetMessages ps t s mOk wOk).2
    cases h1 : lookup t ps.topics with
    | none => rw [GetMessages_absent_topic ps t s mOk wOk h1]; exact h
    | some subs =>
      cases h2 : lookup s subs with
      | none => rw [GetMessages_absent_sub ps t s mOk wOk subs h1 h2]; exact h
      | some msgs =>
        cases hmsgs : msgs with
        | nil => rw [GetMessages_empty ps t s mOk wOk subs h1 (hmsgs ▸ h2)]; exact h
        | cons hd tl =>
          have hne : msgs ≠ [] := by rw [hmsgs]; simp
          cases mOk with
          | false => rw [GetMessages_marshal_fault ps t s wOk subs msgs h1 h2 hne]; exact h
          | true =>
            cases wOk with
            | false => rw [GetMessages_write_fault ps t s subs msgs h1 h2 hne]; exact h
            | true =>
              rw [GetMessages_drains ps t s subs msgs h1 h2 hne]
              intro p hp
              rcases mem_setKey p t _ ps.topics hp with hp1 | hp1
              · exact h p hp1
              · rw [hp1]
                exact setKey_ne_nil s [] subs

theorem TopicsNonempty_run :
    ∀ (ops : List Op) (ps : PubSub), TopicsNonempty ps →
      TopicsNonempty (run ps ops)
  | [], _, h => h
  | op :: ops, ps, h =>
    TopicsNonempty_run ops (step ps op) (TopicsNonempty_step ps op h)

theorem run_subscribe_unsubscribe (T S : String) :
    run emptyState [Op.subscribe T S, Op.unsubscribe T S] = emptyState := by
  have h1 : step emptyState (Op.subscribe T S) = ⟨[(T, [(S, [])])]⟩ := by
    show (Subscribe emptyState T S).2 = _
    rw [Subscribe_absent_topic emptyState T S rfl]
    rw [show emptyState.topics = ([] : TopicMap) from rfl]
    rw [setKey_setKey_self T [(S, [])] [] []]
    rfl
  show run (step emptyState (Op.subscribe T S)) [Op.unsubscribe T S] = emptyState
  rw [h1]
  show step ⟨[(T, [(S, [])])]⟩ (Op.unsubscribe T S) = emptyState
  show (Unsubscribe ⟨[(T, [(S, [])])]⟩ T S).2 = emptyState
  have hl1 : lookup T (⟨[(T, [(S, [])])]⟩ : PubSub).topics = some [(S, [])] := by
    simp [lookup]
  have hl2 : lookup S [(S, ([] : Buffer))] = some [] := by
    simp [lookup]
  rw [Unsubscribe_found ⟨[(T, [(S, [])])]⟩ T S [(S, [])] [] hl1 hl2]
  have he : eraseKey S [(S, ([] : Buffer))] = [] := by simp [eraseKey]
  simp only [he, List.length_nil, if_true]
  show PubSub.mk (eraseKey T [(T, [(S, [])])]) = emptyState
  simp [eraseKey, emptyState]

/-- C4: every broker state reachable from the empty state by Publish,
Subscribe, Unsubscribe and Poll operations has a topic entry only for
topics with a nonempty subscriber map (topic entry exists iff at least
one active subscription — the converse direction is immediate, a
subscription being an entry of its topic's map); in particular
Unsubscribe garbage-collects the topic entry with its last subscriber,
so Subscribe(T,S); Unsubscribe(T,S); Publish(T,m) from the empty state
answers the Publish with NO_CONTENT and no state change. -/
theorem reachable_topic_iff_subscribers (ops : List Op) :
    (∀ T subs, lookup T (run emptyState ops).topics = some subs → subs ≠ []) ∧
    (∀ (T S : String) (b : Body) (now : Time),
      PublishMessage (run emptyState [Op.subscribe T S, Op.unsubscribe T S]) T b now
        = (⟨statusNoContent, []⟩, emptyState)) := by
  constructor
  · intro T subs hlook
    exact TopicsNonempty_run ops emptyState
      (by intro p hp; simp [emptyState] at hp)
      (T, subs) (lookup_mem T subs _ hlook)
  · intro T S b now
    rw [run_subscribe_unsubscribe T S]
    exact PublishMessage_absent_topic emptyState T b now rfl

/-- Witness for C4 at a concrete reachable state and concrete garbage
collection sequence. -/
theorem reachable_topic_iff_subscribers_witness :
    ([("s", ([] : Buffer))] : SubMap) ≠ [] ∧
    PublishMessage (run emptyState [Op.subscribe "t" "s", Op.unsubscribe "t" "s"])
      "t" (Body.content "x") 0 = (⟨statusNoContent, []⟩, emptyState) := by
  refine ⟨(reachable_topic_iff_subscribers [Op.subscribe "t" "s"]).1 "t"
    [("s", [])] (by decide), ?_⟩
  exact (reachable_topic_iff_subscribers []).2 "t" "s" (Body.content "x") 0

/-- C3: Publish(topic, content) on a state where the topic has no
registered subscribers (under the reachable-state invariant that topic
entries are nonempty, so the topic entry is absent) returns 204
NO_CONTENT and leaves the broker state exactly unchanged: no buffered
message is appended anywhere and no topic entry is created. -/
theorem publish_no_subscribers_noop (ps : PubSub) (T c : String) (now : Time)
    (hinv : TopicsNonempty ps)
    (hns : ∀ subs, lookup T ps.topics = some subs → subs = []) :
    PublishMessage ps T (Body.content c) now = (⟨statusNoContent, []⟩, ps) := by
  cases h1 : lookup T ps.topics with
  | none => exact PublishMessage_absent_topic ps T (Body.content c) now h1
  | some subs =>
    exact absurd (hns subs h1) (hinv (T, subs) (lookup_mem T subs ps.topics h1))

/-- Witness for C3 at the empty state. -/
theorem publish_no_subscribers_noop_witness :
    PublishMessage emptyState "t" (Body.content "m") 7
      = (⟨statusNoContent, []⟩, emptyState) := by
  refine publish_no_subscribers_noop emptyState "t" "m" 7 ?_ ?_
  · intro p hp
    simp [emptyState] at hp
  · intro subs h
    simp [emptyState, lookup] at h

/-- C8 as stated is false on the code: a malformed Publish body on a
subscribed topic is answered by http.Error with StatusInternalServerError,
so the status is 500 — the server-error class — not a client error (4xx). -/
theorem malformed_publish_not_client_error :
    (PublishMessage ⟨[("t", [("s", [])])]⟩ "t" Body.malformed 0).1.code = 500 ∧
    ¬(400 ≤ (PublishMessage ⟨[("t", [("s", [])])]⟩ "t" Body.malformed 0).1.code ∧
      (PublishMessage ⟨[("t", [("s", [])])]⟩ "t" Body.malformed 0).1.code < 500) := by
  decide

/-- C8 (amended): a Publish whose body fails to deserialize is surfaced to
the caller as an error — HTTP 500 Internal Server Error, a server-error
status rather than a 4xx client error — and the broker performs no
mutation: the state is returned exactly unchanged, so no subscriber
buffer changes and no topic entry is created or removed. -/
theorem malformed_publish_error_no_mutation (ps : PubSub) (T : String)
    (now : Time) (subs : SubMap) (h1 : lookup T ps.topics = some subs) :
    PublishMessage ps T Body.malformed now
      = (⟨statusInternalServerError, []⟩, ps) :=
  PublishMessage_bad_body ps T Body.malformed now subs h1 rfl

/-- Witness for the amended C8 at a concrete subscribed state. -/
theorem malformed_publish_error_no_mutation_witness :
    PublishMessage ⟨[("t", [("s", [⟨"old", 1⟩])])]⟩ "t" Body.malformed 9
      = (⟨statusInternalServerError, []⟩, ⟨[("t", [("s", [⟨"old", 1⟩])])]⟩) :=
  malformed_publish_error_no_mutation ⟨[("t", [("s", [⟨"old", 1⟩])])]⟩ "t" 9
    [("s", [⟨"old", 1⟩])] (by decide)

/-- C9 as stated is false on the code: in the in-memory variant the drain
happens only after json.Marshal and the response write both succeed, so
on an encoding fault the drain has NOT committed — the buffer is left
fully intact, not fully drained. -/
theorem encoding_fault_drain_not_committed :
    GetMessages ⟨[("t", [("s", [⟨"m", 0⟩])])]⟩ "t" "s" false true
      = (⟨statusInternalServerError, []⟩, ⟨[("t", [("s", [⟨"m", 0⟩])])]⟩) ∧
    buffer (GetMessages ⟨[("t", [("s", [⟨"m", 0⟩])])]⟩ "t" "s" false true).2 "t" "s"
      ≠ [] := by
  decide

/-- C9 (amended): Poll on an existing subscription with a non-empty buffer
is all-or-nothing: on success (marshal and write both succeed) it responds
200 with the messages and the buffer is fully drained; on a marshal or
write fault it responds 500 with the broker state exactly unchanged, the
buffer fully intact — never partially drained.  The drain commits only
after encoding and writing succeed, so on an encoding fault the drain has
not been applied. -/
theorem poll_drain_all_or_nothing (ps : PubSub) (T S : String) (subs : SubMap)
    (msgs : Buffer) (mOk wOk : Bool)
    (h1 : lookup T ps.topics = some subs) (h2 : lookup S subs = some msgs)
    (hne : msgs ≠ []) :
    (mOk = true → wOk = true →
      GetMessages ps T S mOk wOk
        = (⟨statusOK, msgs⟩, ⟨setKey T (setKey S [] subs) ps.topics⟩) ∧
      buffer (GetMessages ps T S mOk wOk).2 T S = []) ∧
    (mOk = false ∨ wOk = false →
      GetMessages ps T S mOk wOk = (⟨statusInternalServerError, []⟩, ps)) := by
  constructor
  · intro hm hw
    subst hm
    subst hw
    have hget := GetMessages_drains ps T S subs msgs h1 h2 hne
    refine ⟨hget, ?_⟩
    rw [hget]
    rw [buffer_some _ T S _ (lookup_setKey_self T _ ps.topics)]
    rw [lookup_setKey_self]
    rfl
  · intro hfault
    rcases hfault with hm | hw
    · subst hm
      exact GetMessages_marshal_fault ps T S wOk subs msgs h1 h2 hne
    · subst hw
      cases mOk with
      | false => exact GetMessages_marshal_fault ps T S false subs msgs h1 h2 hne
      | true => exact GetMessages_write_fault ps T S subs msgs h1 h2 hne

/-- Witness for the amended C9: success drains fully, a marshal fault
leaves the state exactly intact. -/
theorem poll_drain_all_or_nothing_witness :
    GetMessages ⟨[("t", [("s", [⟨"m", 0⟩])])]⟩ "t" "s" true true
      = (⟨statusOK, [⟨"m", 0⟩]⟩,
        ⟨setKey "t" (setKey "s" [] [("s", [⟨"m", 0⟩])]) [("t", [("s", [⟨"m", 0⟩])])]⟩) ∧
    GetMessages ⟨[("t", [("s", [⟨"m", 0⟩])])]⟩ "t" "s" false false
      = (⟨statusInternalServerError, []⟩, ⟨[("t", [("s", [⟨"m", 0⟩])])]⟩) := by
  constructor
  · exact ((poll_drain_all_or_nothing ⟨[("t", [("s", [⟨"m", 0⟩])])]⟩ "t" "s"
      [("s", [⟨"m", 0⟩])] [⟨"m", 0⟩] true true (by decide) (by decide) (by decide)).1
      rfl rfl).1
  · exact (poll_drain_all_or_nothing ⟨[("t", [("s", [⟨"m", 0⟩])])]⟩ "t" "s"
      [("s", [⟨"m", 0⟩])] [⟨"m", 0⟩] false false (by decide) (by decide) (by decide)).2
      (Or.inl rfl)

/-- C10: the in-memory PublishMessage tests the topic entry before the
request body is read or parsed, so every Publish to a topic with no entry
— equivalently, in reachable states, with zero subscribers — returns 204
NO_CONTENT with no mutation even for a malformed or absent body, and,
conversely, the body-parse error path (500) is reachable only when the
topic has a subscriber-set entry. -/
theorem publish_topic_check_before_body (ps : PubSub) (T : String) (now : Time)
    (h1 : lookup T ps.topics = none) :
    (∀ b : Body, PublishMessage ps T b now = (⟨statusNoContent, []⟩, ps)) ∧
    (∀ (ps' : PubSub) (b : Body) (now' : Time),
      (PublishMessage ps' T b now').1.code = statusInternalServerError →
      ∃ subs, lookup T ps'.topics = some subs) := by
  constructor
  · intro b
    exact PublishMessage_absent_topic ps T b now h1
  · intro ps' b now' hcode
    cases h2 : lookup T ps'.topics with
    | none =>
      rw [PublishMessage_absent_topic ps' T b now' h2] at hcode
      simp [statusNoContent, statusInternalServerError] at hcode
    | some subs => exact ⟨subs, rfl⟩

/-- Witness for C10: a malformed body published to an absent topic still
answers 204 with no mutation. -/
theorem publish_topic_check_before_body_witness :
    PublishMessage emptyState "t" Body.malformed 3
      = (⟨statusNoContent, []⟩, emptyState) :=
  (publish_topic_check_before_body emptyState "t" 3 (by decide)).1 Body.malformed

theorem Subscribe_noop_of_present (ps : PubSub) (T S : String) (buf : Buffer)
    (h : lookup S ((lookup T ps.topics).getD []) = some buf) :
    Subscribe ps T S = (⟨statusCreated, []⟩, ps) := by
  cases h1 : lookup T ps.topics with
  | none =>
    rw [h1] at h
    simp [lookup] at h
  | some subs =>
    rw [h1] at h
    exact Subscribe_present ps T S subs buf h1 h

theorem Subscribe_sub_present (ps : PubSub) (T S : String) :
    ∃ buf, lookup S ((lookup T (Subscribe ps T S).2.topics).getD []) = some buf := by
  cases h1 : lookup T ps.topics with
  | none =>
    rw [Subscribe_absent_topic ps T S h1]
    refine ⟨[], ?_⟩
    rw [show (PubSub.mk (setKey T [(S, [])] (setKey T [] ps.topics))).topics
      = setKey T [(S, [])] (setKey T [] ps.topics) from rfl]
    rw [lookup_setKey_self]
    simp [lookup]
  | some subs =>
    cases h2 : lookup S subs with
    | none =>
      rw [Subscribe_absent_sub ps T S subs h1 h2]
      refine ⟨[], ?_⟩
      rw [show (PubSub.mk (setKey T (setKey S [] subs) ps.topics)).topics
        = setKey T (setKey S [] subs) ps.topics from rfl]
      rw [lookup_setKey_self]
      rw [show ((some (setKey S [] subs)).getD []) = setKey S [] subs from rfl]
      rw [lookup_setKey_self]
    | some buf =>
      rw [Subscribe_present ps T S subs buf h1 h2]
      refine ⟨buf, ?_⟩
      rw [h1]
      exact h2

theorem Subscribe_creates_of_absent (ps : PubSub) (T S : String)
    (habsent : lookup S ((lookup T ps.topics).getD []) = none) :
    lookup S ((lookup T (Subscribe ps T S).2.topics).getD []) = some [] := by
  cases h1 : lookup T ps.topics with
  | none =>
    rw [Subscribe_absent_topic ps T S h1]
    rw [show (PubSub.mk (setKey T [(S, [])] (setKey T [] ps.topics))).topics
      = setKey T [(S, [])] (setKey T [] ps.topics) from rfl]
    rw [lookup_setKey_self]
    simp [lookup]
  | some subs =>
    rw [h1] at habsent
    rw [Subscribe_absent_sub ps T S subs h1 habsent]
    rw [show (PubSub.mk (setKey T (setKey S [] subs) ps.topics)).topics
      = setKey T (setKey S [] subs) ps.topics from rfl]
    rw [lookup_setKey_self]
    rw [show ((some (setKey S [] subs)).getD []) = setKey S [] subs from rfl]
    rw [lookup_setKey_self]

/-- C5: Subscribe is idempotent: it always returns 201 Created; on a state
where the (T,S) subscription is absent it creates it with an empty buffer
— afterwards the (T,S) entry exists and maps to the empty message list,
so a fresh subscription is distinguishable from an absent one; on a state
where it already exists it is an exact no-op on the state — the buffered
content is neither reset, cleared nor duplicated — so Subscribe(T,S);
Subscribe(T,S) leaves the same state as a single Subscribe(T,S). -/
theorem subscribe_idempotent (ps : PubSub) (T S : String) :
    (Subscribe ps T S).1 = ⟨statusCreated, []⟩ ∧
    (lookup S ((lookup T ps.topics).getD []) = none →
      lookup S ((lookup T (Subscribe ps T S).2.topics).getD []) = some []) ∧
    (∀ buf, lookup S ((lookup T ps.topics).getD []) = some buf →
      Subscribe ps T S = (⟨statusCreated, []⟩, ps)) ∧
    Subscribe (Subscribe ps T S).2 T S = (⟨statusCreated, []⟩, (Subscribe ps T S).2) := by
  refine ⟨rfl, ?_, ?_, ?_⟩
  · intro habsent
    exact Subscribe_creates_of_absent ps T S habsent
  · intro buf hpresent
    exact Subscribe_noop_of_present ps T S buf hpresent
  · obtain ⟨buf, hbuf⟩ := Subscribe_sub_present ps T S
    exact Subscribe_noop_of_present (Subscribe ps T S).2 T S buf hbuf

/-- Witness for C5: re-subscribing keeps the buffered message, and a fresh
subscribe creates the (t,s) entry with an empty buffer. -/
theorem subscribe_idempotent_witness :
    Subscribe ⟨[("t", [("s", [⟨"x", 1⟩])])]⟩ "t" "s"
      = (⟨statusCreated, []⟩, ⟨[("t", [("s", [⟨"x", 1⟩])])]⟩) ∧
    lookup "s" ((lookup "t" (Subscribe emptyState "t" "s").2.topics).getD [])
      = some [] := by
  refine ⟨(subscribe_idempotent ⟨[("t", [("s", [⟨"x", 1⟩])])]⟩ "t" "s").2.2.1
    [⟨"x", 1⟩] (by decide), ?_⟩
  exact (subscribe_idempotent emptyState "t" "s").2.1 (by decide)

/-- C7: an Unsubscribe addressing a subscription that does not exist —
topic absent, subscriber absent within the topic, or both — returns 404
NOT_FOUND and leaves the state exactly unchanged; an Unsubscribe of an
existing subscription (in a well-formed state, as Go maps guarantee)
responds 204 and removes the subscription together with its buffered
messages: the (T,S) entry no longer exists afterwards. -/
theorem unsubscribe_not_found_or_removes (ps : PubSub) (T S : String) :
    ((∀ subs, lookup T ps.topics = some subs → lookup S subs = none) →
      Unsubscribe ps T S = (⟨statusNotFound, []⟩, ps)) ∧
    (∀ subs buf, WF ps → lookup T ps.topics = some subs →
      lookup S subs = some buf →
      (Unsubscribe ps T S).1 = ⟨statusNoContent, []⟩ ∧
      lookup S ((lookup T (Unsubscribe ps T S).2.topics).getD []) = none) := by
  constructor
  · intro habsent
    cases h1 : lookup T ps.topics with
    | none => exact Unsubscribe_absent_topic ps T S h1
    | some subs => exact Unsubscribe_absent_sub ps T S subs h1 (habsent subs h1)
  · intro subs buf hwf h1 h2
    have hfound := Unsubscribe_found ps T S subs buf h1 h2
    rw [hfound]
    refine ⟨rfl, ?_⟩
    by_cases hlen : (eraseKey S subs).length = 0
    · simp only [hlen, if_true]
      rw [lookup_eraseKey_self T ps.topics hwf.1]
      simp [lookup]
    · simp only [hlen, if_false]
      rw [lookup_setKey_self]
      simp only [Option.getD_some]
      exact lookup_eraseKey_self S subs (hwf.2 (T, subs) (lookup_mem T subs ps.topics h1))

/-- Witness for C7: a missing subscription answers 404 unchanged; an
existing one is removed with 204. -/
theorem unsubscribe_not_found_or_removes_witness :
    Unsubscribe emptyState "t" "s" = (⟨statusNotFound, []⟩, emptyState) ∧
    (Unsubscribe ⟨[("t", [("s", [⟨"x", 1⟩])])]⟩ "t" "s").1 = ⟨statusNoContent, []⟩ ∧
    lookup "s" ((lookup "t"
      (Unsubscribe ⟨[("t", [("s", [⟨"x", 1⟩])])]⟩ "t" "s").2.topics).getD []) = none := by
  refine ⟨(unsubscribe_not_found_or_removes emptyState "t" "s").1 ?_, ?_⟩
  · intro subs h
    simp [emptyState, lookup] at h
  · exact (unsubscribe_not_found_or_removes ⟨[("t", [("s", [⟨"x", 1⟩])])]⟩ "t" "s").2
      [("s", [⟨"x", 1⟩])] [⟨"x", 1⟩] (by decide) (by decide) (by decide)

/-- C1: a Publish(topic, content) on a state where the topic has at least
one registered subscriber stamps the published time with the server clock
once, appends that one identical stamped message to the buffer of every
subscriber currently registered on the topic, and returns 201 CREATED; a
subsequent Poll on any such subscriber then returns the stamped message
exactly once (it was not already an exact duplicate in the buffer) and
leaves that buffer empty, so no later Poll returns it again. -/
theorem publish_fanout_delivers_once (ps : PubSub) (T c : String) (now : Time)
    (subs : SubMap) (ht : lookup T ps.topics = some subs) (hsubs : subs ≠ []) :
    (PublishMessage ps T (Body.content c) now).1 = ⟨statusCreated, []⟩ ∧
    (∀ s buf, lookup s subs = some buf →
      buffer (PublishMessage ps T (Body.content c) now).2 T s = buf ++ [⟨c, now⟩]) ∧
    (∀ s buf, lookup s subs = some buf → Message.mk c now ∉ buf →
      ((GetMessages (PublishMessage ps T (Body.content c) now).2 T s true true).1.body.count
          (Message.mk c now) = 1 ∧
        buffer (GetMessages (PublishMessage ps T (Body.content c) now).2 T s true true).2 T s
          = [])) := by
  have hdel := PublishMessage_delivers ps T (Body.content c) now subs c ht rfl
  refine ⟨by rw [hdel], ?_, ?_⟩
  · intro s buf hs
    rw [hdel]
    rw [buffer_some _ T s _ (lookup_setKey_self T _ ps.topics)]
    rw [lookup_fanout, hs]
    rfl
  · intro s buf hs hfresh
    rw [hdel]
    have hl1 : lookup T (setKey T (subs.map (fun p => (p.1, p.2 ++ [⟨c, now⟩]))) ps.topics)
        = some (subs.map (fun p => (p.1, p.2 ++ [⟨c, now⟩]))) :=
      lookup_setKey_self T _ ps.topics
    have hl2 : lookup s (subs.map (fun p => (p.1, p.2 ++ [⟨c, now⟩])))
        = some (buf ++ [⟨c, now⟩]) := by
      rw [lookup_fanout, hs]
      rfl
    have hne : buf ++ [Message.mk c now] ≠ [] := by simp
    have hget := GetMessages_drains
      ⟨setKey T (subs.map (fun p => (p.1, p.2 ++ [⟨c, now⟩]))) ps.topics⟩
      T s _ (buf ++ [⟨c, now⟩]) hl1 hl2 hne
    constructor
    · rw [hget]
      show (buf ++ [Message.mk c now]).count (Message.mk c now) = 1
      rw [List.count_append]
      rw [List.count_eq_zero.mpr hfresh]
      simp
    · rw [hget]
      rw [buffer_some _ T s _ (lookup_setKey_self T _ _)]
      rw [lookup_setKey_self]
      rfl

/-- Witness for C1 on a two-subscriber topic. -/
theorem publish_fanout_delivers_once_witness :
    (PublishMessage ⟨[("t", [("a", []), ("b", [⟨"old", 1⟩])])]⟩ "t"
        (Body.content "hi") 5).1 = ⟨statusCreated, []⟩ ∧
    buffer (PublishMessage ⟨[("t", [("a", []), ("b", [⟨"old", 1⟩])])]⟩ "t"
        (Body.content "hi") 5).2 "t" "b" = [⟨"old", 1⟩] ++ [⟨"hi", 5⟩] ∧
    (GetMessages (PublishMessage ⟨[("t", [("a", []), ("b", [⟨"old", 1⟩])])]⟩ "t"
        (Body.content "hi") 5).2 "t" "a" true true).1.body.count ⟨"hi", 5⟩ = 1 := by
  have h := publish_fanout_delivers_once ⟨[("t", [("a", []), ("b", [⟨"old", 1⟩])])]⟩
    "t" "hi" 5 [("a", []), ("b", [⟨"old", 1⟩])] (by decide) (by decide)
  exact ⟨h.1, h.2.1 "b" [⟨"old", 1⟩] (by decide),
    (h.2.2 "a" [] (by decide) (by decide)).1⟩

/-- C2: a Poll on an existing subscription with a non-empty buffer returns
the full buffer contents in their stored FIFO publish order (Publish
appends at the tail, and the response is exactly the stored list), empties
the buffer within the same call, and a consecutive second Poll with no
intervening Publish signals EMPTY (204 with no body) changing nothing;
moreover a message just returned stays out of the buffer — hence is never
returned by any later Poll — across any subsequent operation sequence that
does not republish an identical message (same content and timestamp) to
the topic. -/
theorem poll_drains_exactly (ps : PubSub) (T S : String) (subs : SubMap)
    (msgs : Buffer) (ht : lookup T ps.topics = some subs)
    (hs : lookup S subs = some msgs) (hne : msgs ≠ []) :
    (GetMessages ps T S true true).1 = ⟨statusOK, msgs⟩ ∧
    buffer (GetMessages ps T S true true).2 T S = [] ∧
    GetMessages (GetMessages ps T S true true).2 T S true true
      = (⟨statusNoContent, []⟩, (GetMessages ps T S true true).2) ∧
    (∀ m ∈ msgs, ∀ ops : List Op, WF ps →
      (∀ op ∈ ops, ¬ stamps op T m) → ∀ mOk wOk : Bool,
      m ∉ (GetMessages (run (GetMessages ps T S true true).2 ops) T S mOk wOk).1.body) := by
  have hget := GetMessages_drains ps T S subs msgs ht hs hne
  have hl1 : lookup T (setKey T (setKey S [] subs) ps.topics) = some (setKey S [] subs) :=
    lookup_setKey_self T _ ps.topics
  have hl2 : lookup S (setKey S [] subs) = some [] := lookup_setKey_self S [] subs
  refine ⟨by rw [hget], ?_, ?_, ?_⟩
  · rw [hget, buffer_some _ T S _ hl1, hl2]
    rfl
  · rw [hget]
    exact GetMessages_empty _ T S true true _ hl1 hl2
  · intro m hm ops hwf hnp mOk wOk hmem
    have hbuf := GetMessages_body_in_buffer
      (run (GetMessages ps T S true true).2 ops) T S mOk wOk m hmem
    have hwf2 : WF (GetMessages ps T S true true).2 := WF_GetMessages ps T S true true hwf
    have hb0 : m ∉ buffer (GetMessages ps T S true true).2 T S := by
      rw [hget, buffer_some _ T S _ hl1, hl2]
      simp
    exact buffer_run_no_stamp T S m ops (GetMessages ps T S true true).2 hwf2 hb0 hnp hbuf

/-- Witness for C2 on a buffer of two messages in publish order. -/
theorem poll_drains_exactly_witness :
    (GetMessages ⟨[("t", [("s", [⟨"a", 1⟩, ⟨"b", 2⟩])])]⟩ "t" "s" true true).1
      = ⟨statusOK, [⟨"a", 1⟩, ⟨"b", 2⟩]⟩ ∧
    buffer (GetMessages ⟨[("t", [("s", [⟨"a", 1⟩, ⟨"b", 2⟩])])]⟩ "t" "s" true true).2
      "t" "s" = [] ∧
    Message.mk "a" 1 ∉
      (GetMessages (run (GetMessages ⟨[("t", [("s", [⟨"a", 1⟩, ⟨"b", 2⟩])])]⟩
        "t" "s" true true).2 []) "t" "s" true true).1.body := by
  have h := poll_drains_exactly ⟨[("t", [("s", [⟨"a", 1⟩, ⟨"b", 2⟩])])]⟩ "t" "s"
    [("s", [⟨"a", 1⟩, ⟨"b", 2⟩])] [⟨"a", 1⟩, ⟨"b", 2⟩] (by decide) (by decide) (by decide)
  exact ⟨h.1, h.2.1, h.2.2.2 ⟨"a", 1⟩ (by decide) [] (by decide) (by simp) true true⟩

/-- C6 as stated is false on the code: Subscribe is idempotent and does
not clear an existing buffer, so a Subscribe(T,S) executed strictly after
a Publish(T,m) — here the re-subscribe of the already-subscribed pair
(t,s) — can be followed by a Poll(T,S) that returns m. -/
theorem subscribe_after_publish_poll_returns_message :
    (applyOp (run emptyState [Op.subscribe "t" "s",
        Op.publish "t" (Body.content "hi") 5, Op.subscribe "t" "s"])
      (Op.poll "t" "s" true true)).1.body = [⟨"hi", 5⟩] := by
  decide

/-- C6 (amended): if the Subscribe(T,S) creates the subscription — no
(T,S) subscription exists in the (well-formed) state when it runs — and no
subsequent operation is a Publish to T stamping a message equal to m (same
content and same timestamp), then no later Poll(T,S) in the subsequent
operation sequence ever returns m: a message published before the
subscription was created is never visible to it. -/
theorem no_replay_fresh_subscription (ps : PubSub) (T S : String) (m : Message)
    (ops : List Op) (hwf : WF ps)
    (habsent : lookup S ((lookup T ps.topics).getD []) = none)
    (hnp : ∀ op ∈ ops, ¬ stamps op T m) :
    ∀ pre suf : List Op, ∀ mOk wOk : Bool,
      ops = pre ++ Op.poll T S mOk wOk :: suf →
      m ∉ (GetMessages (run (step ps (Op.subscribe T S)) pre) T S mOk wOk).1.body := by
  intro pre suf mOk wOk hops hmem
  have hwf1 : WF (step ps (Op.subscribe T S)) := WF_step ps (Op.subscribe T S) hwf
  have hb0 : m ∉ buffer (step ps (Op.subscribe T S)) T S := by
    show m ∉ buffer (Subscribe ps T S).2 T S
    rw [buffer_Subscribe_fresh ps T S habsent]
    simp
  have hnp' : ∀ op ∈ pre, ¬ stamps op T m := by
    intro op hop
    refine hnp op ?_
    rw [hops]
    exact List.mem_append.mpr (Or.inl hop)
  have hbuf := GetMessages_body_in_buffer
    (run (step ps (Op.subscribe T S)) pre) T S mOk wOk m hmem
  exact buffer_run_no_stamp T S m pre (step ps (Op.subscribe T S)) hwf1 hb0 hnp' hbuf

/-- Witness for the amended C6: a message published to the topic before
(t,s) existed (buffered for another subscriber) is not returned by the
poll following a fresh subscribe. -/
theorem no_replay_fresh_subscription_witness :
    Message.mk "hi" 5 ∉
      (GetMessages (run (step ⟨[("t", [("other", [⟨"hi", 5⟩])])]⟩
        (Op.subscribe "t" "s")) []) "t" "s" true true).1.body := by
  refine no_replay_fresh_subscription ⟨[("t", [("other", [⟨"hi", 5⟩])])]⟩ "t" "s"
    ⟨"hi", 5⟩ [Op.poll "t" "s" true true] (by decide) (by decide) ?_ [] [] true true rfl
  intro op hop
  rw [List.mem_singleton] at hop
  subst hop
  simp [stamps]
